import Mathlib

/-!
convcom: the interactive menu, the key decoder and the commit executor.

A shallow embedding of `cmd/convcom/main.go` (and of `createConfigFile`, which
`cmd/convcom/config.go` repeats verbatim).

Conventions of the embedding:

* a Go `byte` is a `Nat` (no arithmetic is done on key codes, only comparisons);
* a Go `int` is an `Int`.  The only arithmetic is `CursorPos + len - 1` and
  `CursorPos + 1` with `0 ≤ CursorPos < len`, and the length of a slice of
  pointers is far below `2^62`, so 64-bit wrap-around cannot occur;
* Go `%` truncates towards zero: it is `Int.tmod`, and panics on a zero divisor;
* the terminal is the environment: each call of `getInput` consumes one
  `RawRead`, and what the program prints or runs is recorded in a `World`.
-/

namespace Convcom

/-! ## Raw input keycodes -/

def up : Nat := 65
def down : Nat := 66
def escape : Nat := 27
def enter : Nat := 13

/-- The map `keys`: membership test `_, ok := keys[b]`. -/
def keys (b : Nat) : Bool := b == up || b == down

/-! ## Menu -/

/-- One menu option.  The Go field `SubMenu` is never assigned nor read. -/
structure MenuItem where
  Text : String
  ID : String
  deriving DecidableEq, Repr

structure Menu where
  Prompt : String
  CursorPos : Int
  MenuItems : List MenuItem
  deriving DecidableEq, Repr

def NewMenu (prompt : String) : Menu :=
  { Prompt := prompt, CursorPos := 0, MenuItems := [] }

/-- AddItem appends a new option to the menu list. -/
def Menu.AddItem (m : Menu) (option : String) (id : String) : Menu :=
  { m with MenuItems := m.MenuItems ++ [{ Text := option, ID := id }] }

/-! ## getInput -/

/-- What one call of `getInput` finds.  `failed`: one of `term.GetState`,
`term.MakeRaw`, `os.Stdin.Read`, `term.Restore` returned an error.
`bytes n b0 b1 b2`: `Read` returned `n` and left `b0 b1 b2` in `readBytes`. -/
inductive RawRead where
  | failed
  | bytes (n b0 b1 b2 : Nat)
  deriving DecidableEq, Repr

/-- The key code `getInput` returns; `none` is `log.Fatal` (the process stops). -/
def getInput : RawRead → Option Nat
  | .failed => none
  | .bytes n b0 _ b2 =>
    if n = 3 then
      if keys b2 then some b2 else some 0
    else
      if b0 = 24 then some 24 else some b0

/-! ## Display -/

/-- Go run-time panics that `Display` can raise. -/
inductive RuntimeError where
  | indexOutOfRange
  | integerDivideByZero
  deriving DecidableEq, Repr

/-- Go slice indexing `xs[i]` with an `int` index: `none` is the panic. -/
def index {α : Type} (xs : List α) (i : Int) : Option α :=
  if 0 ≤ i ∧ i < (xs.length : Int) then xs.get? i.toNat else none

/-- Go `a % b` on `int`: `none` is the panic on a zero divisor. -/
def goMod (a b : Int) : Option Int :=
  if b = 0 then none else some (Int.tmod a b)

/-- How a run of `Display` over the key events received so far stands. -/
inductive Outcome where
  /-- Display returned `value`; `m` is the menu as left behind, `rest` the unread input -/
  | returned (value : String) (m : Menu) (rest : List RawRead)
  /-- The process ended through `os.Exit(0)` after Ctrl+X -/
  | exited
  /-- The process ended through `log.Fatal` inside `getInput` -/
  | fatal
  /-- A run-time panic -/
  | panicked (e : RuntimeError)
  /-- The loop is blocked in `getInput`, waiting for the next key -/
  | awaiting (m : Menu)
  deriving DecidableEq, Repr

/-- The loop of `Menu.Display`, one `RawRead` per iteration.  The calls of
`renderMenuItems` and the escape sequences only write to the terminal and
read `m` without changing it; they are left out. -/
def Display (m : Menu) : List RawRead → Outcome
  | [] => .awaiting m
  | r :: rest =>
    match getInput r with
    | none => .fatal
    | some keyCode =>
      if keyCode = escape then
        .returned "" m rest
      else if keyCode = 24 then
        .exited
      else if keyCode = enter then
        match index m.MenuItems m.CursorPos with
        | none => .panicked .indexOutOfRange
        | some menuItem => .returned menuItem.ID m rest
      else if keyCode = up then
        match goMod (m.CursorPos + (m.MenuItems.length : Int) - 1) (m.MenuItems.length : Int) with
        | none => .panicked .integerDivideByZero
        | some c => Display { m with CursorPos := c } rest
      else if keyCode = down then
        match goMod (m.CursorPos + 1) (m.MenuItems.length : Int) with
        | none => .panicked .integerDivideByZero
        | some c => Display { m with CursorPos := c } rest
      else
        Display m rest

/-! ## The menus built by `main` -/

structure Config where
  Types : List String
  Scopes : List String
  deriving DecidableEq, Repr

/-- The menu `menuType` of `main`: one item per configured type. -/
def menuType (config : Config) : Menu :=
  config.Types.foldl (fun m ctype => m.AddItem ctype ctype) (NewMenu "Choose a type")

/-- The menu `menuScope` of `main`: the item "none", then one item per scope. -/
def menuScope (config : Config) : Menu :=
  config.Scopes.foldl (fun m cscope => m.AddItem cscope ("(" ++ cscope ++ ")"))
    ((NewMenu "Choose a scope").AddItem "none" "")

def menuBreak : Menu :=
  ((NewMenu "Breaking change?").AddItem "no" "").AddItem "yes" "!"

def menuCommit : Menu :=
  ((NewMenu "Push?").AddItem "no" "no").AddItem "yes" "yes"

/-! ## Choices and the commit executor -/

/-- The user choices accumulated by `main`. -/
structure Choices where
  TypeChoice : String
  ScopeChoice : String
  BreakChoice : String
  CommitMessage : String
  deriving DecidableEq, Repr

/-- The local `commit` of `commitAndPush`:
`fmt.Sprintf("Commit ... %s%s%s: %s\n", TypeChoice, ScopeChoice, BreakChoice, CommitMessage)`. -/
def Choices.commit (c : Choices) : String :=
  "Commit ... " ++ c.TypeChoice ++ c.ScopeChoice ++ c.BreakChoice ++ ": " ++ c.CommitMessage ++ "\n"

/-- What the program has printed, and the commands it has run (as argv lists). -/
structure World where
  stdout : String
  commands : List (List String)
  configFile : Option String
  deriving DecidableEq, Repr

/-! ### `fmt.Printf` called with a format and no operand

`commitAndPush` prints `commit` with `fmt.Printf(commit)`: the string is the
format.  The definitions below follow `(*pp).doPrintf` of the Go package `fmt`
for an empty operand list; flags, width and precision are parsed and dropped,
since without an operand they never reach the output.  Formats are lists of
characters: every byte `doPrintf` tests is ASCII, and a verb is one rune. -/

/-- The loop of `parsenum`: digits are accumulated until a non-digit or the end
of the segment; a number above `1e6` (`tooLarge`) gives up and jumps to the end. -/
def parsenumLoop : List Char → Nat → Bool → Nat × Bool × List Char
  | [], num, isnum => (num, isnum, [])
  | c :: cs, num, isnum =>
    if '0' ≤ c ∧ c ≤ '9' then
      if num > 1000000 then (0, false, [])
      else parsenumLoop cs (num * 10 + (c.toNat - 48)) true
    else (num, isnum, c :: cs)

/-- The function `parsenum(s, start, end)` on the segment `s[start:end]`: the number,
whether one was read, and what is left of the segment. -/
def parsenum (seg : List Char) : Nat × Bool × List Char :=
  parsenumLoop seg 0 false

/-- The length in bytes of the UTF-8 encoding. -/
def utf8Len (s : List Char) : Nat := (s.map Char.utf8Size).sum

/-- The function `parseArgNumber` on a format that starts with `[`: the format after
the bracketed index, and `ok`. -/
def parseArgNumber (s : List Char) : List Char × Bool :=
  if utf8Len s < 3 then (s.drop 1, false)
  else
    let body := s.drop 1
    if body.contains ']' then
      let seg := body.takeWhile (fun c => c != ']')
      let after := (body.dropWhile (fun c => c != ']')).drop 1
      let r := parsenum seg
      if !r.2.1 || !r.2.2.isEmpty then (after, false) else (after, true)
    else (s.drop 1, false)

/-- The method `argNumber` with `numArgs = 0`: the format left, `found`, and the
new `goodArgNum`.  No index is below `numArgs`, so a bracket always clears
`goodArgNum`. -/
def argNumber (s : List Char) (goodArgNum : Bool) : List Char × Bool × Bool :=
  match s with
  | '[' :: _ => let r := parseArgNumber s; (r.1, r.2, false)
  | _ => (s, false, goodArgNum)

/-- The simpleFormat loop: skips the flags `# 0 + - space`. -/
def skipFlags : List Char → List Char
  | [] => []
  | c :: cs =>
    if c = '#' ∨ c = '0' ∨ c = '+' ∨ c = '-' ∨ c = ' ' then skipFlags cs else c :: cs

/-- One verb of `doPrintf`, from just after its `%`: what is written and the
format that is left. -/
def doVerb (s0 : List Char) : List Char × List Char :=
  let s1 := skipFlags s0
  -- explicit argument index
  let a1 := argNumber s1 true
  -- width
  let w : List Char × List Char × Bool × Bool :=
    match a1.1 with
    | '*' :: t => ("%!(BADWIDTH)".toList, t, false, a1.2.2)
    | s =>
      let r := parsenum s
      ([], r.2.2, a1.2.1, if a1.2.1 && r.2.1 then false else a1.2.2)
  -- precision
  let p : List Char × List Char × Bool × Bool :=
    match w.2.1 with
    | '.' :: t =>
      let good := if w.2.2.1 then false else w.2.2.2
      let a2 := argNumber t good
      match a2.1 with
      | '*' :: t2 => (w.1 ++ "%!(BADPREC)".toList, t2, false, a2.2.2)
      | s => (w.1, (parsenum s).2.2, a2.2.1, a2.2.2)
    | _ => w
  let a3 := if p.2.2.1 then (p.2.1, p.2.2.1, p.2.2.2) else argNumber p.2.1 p.2.2.2
  match a3.1 with
  | [] => (p.1 ++ "%!(NOVERB)".toList, [])
  | verb :: t =>
    if verb = '%' then (p.1 ++ ['%'], t)
    else if !a3.2.2 then (p.1 ++ "%!".toList ++ [verb] ++ "(BADINDEX)".toList, t)
    else (p.1 ++ "%!".toList ++ [verb] ++ "(MISSING)".toList, t)

/-- The formatLoop of `doPrintf`: text up to the next `%` is copied, then one
verb is processed.  Each round consumes at least the `%`, so a fuel of the
length of the format is never exhausted. -/
def doPrintf : Nat → List Char → List Char
  | 0, _ => []
  | fuel + 1, s =>
    let text := s.takeWhile (fun c => c != '%')
    match s.dropWhile (fun c => c != '%') with
    | [] => text
    | _ :: s1 =>
      let v := doVerb s1
      text ++ v.1 ++ doPrintf fuel v.2

/-- What `fmt.Printf(format)` writes when it is given no operand. -/
def Printf (format : String) : String :=
  String.mk (doPrintf (format.length + 1) format.toList)

/-- The method `commitAndPush`.  `runErr` is the error of `commitCmd.Run()`
(`none` for nil).  Returns the Go `error` (`none` for nil) and the new world. -/
def Choices.commitAndPush (c : Choices) (dryrun : Bool) (runErr : Option String)
    (w : World) : Option String × World :=
  let w1 := { w with stdout := w.stdout
      ++ "\x1b[2J\x1b[H"
      ++ "\x1b[4;37m\x1b[1;37mConventional Commit\x1b[0m\x1b[0m\n\n"
      ++ ("* \x1b[46m" ++ c.TypeChoice ++ "\x1b[0m\x1b[42m" ++ c.ScopeChoice
          ++ "\x1b[0m\x1b[41m" ++ c.BreakChoice ++ "\x1b[0m: " ++ c.CommitMessage ++ "\n\n") }
  let commit := c.commit
  if dryrun then
    (none, { w1 with stdout := w1.stdout ++ Printf commit })
  else
    let w2 := { w1 with commands := w1.commands ++ [["git", "commit", "-am", commit]] }
    match runErr with
    | some err => (some ("failed to commit changes: " ++ err), w2)
    | none => (none, w2)

/-! ## createConfigFile -/

/-- What the operating system answers to `createConfigFile`, beyond the
presence of the file: `statFails` makes `os.Stat` fail for another reason than
absence; `createErr` is the error of `os.Create`; `writeErr` is the error of
the write done by `Encode`, with the number of characters written before it. -/
structure FileEnv where
  statFails : Bool
  createErr : Option String
  writeErr : Option (Nat × String)
  deriving DecidableEq, Repr

/-- The error of `os.Stat(fileName)`. -/
inductive StatErr where
  | nil
  | notExist
  | other
  deriving DecidableEq, Repr

def osStat (env : FileEnv) (w : World) : StatErr :=
  if env.statFails then .other
  else if w.configFile.isSome then .nil else .notExist

/-- The test `os.IsNotExist(err)`. -/
def IsNotExist (err : StatErr) : Bool := err == .notExist

/-- The bytes `encoder.Encode(config)` writes for the default configuration,
indented by two spaces. -/
def defaultConfigJSON : String :=
  "\x7b\n  \"types\": [\n    \"build\",\n    \"ci\",\n    \"chore\",\n    \"docs\",\n    \"feat\",\n    \"fix\",\n    \"perf\",\n    \"refactor\",\n    \"revert\",\n    \"style\",\n    \"test\"\n  ],\n  \"scopes\": []\n\x7d\n"

/-- The function `createConfigFile`: the Go `error` (`none` for nil) and the new world. -/
def createConfigFile (env : FileEnv) (w : World) : Option String × World :=
  let fileName := "convcom.json"
  if !IsNotExist (osStat env w) then
    (some ("config file " ++ fileName ++ " already exists"), w)
  else
    match env.createErr with
    | some err => (some ("failed to create config file: " ++ err), w)
    | none =>
      let w1 := { w with configFile := some "" }
      match env.writeErr with
      | some (k, err) =>
        (some ("failed to write config to file: " ++ err),
          { w1 with configFile := some (defaultConfigJSON.take k) })
      | none =>
        (none, { w1 with
          configFile := some defaultConfigJSON
          stdout := w1.stdout ++ "Config file " ++ fileName ++ " created successfully.\n" })

/-! ## The composition of the choices in `main` -/

/-- The test `unicode.IsSpace`. -/
def isSpace (r : Char) : Bool :=
  let n := r.toNat
  (9 ≤ n && n ≤ 13) || n == 0x20 || n == 0x85 || n == 0xA0 || n == 0x1680
    || (0x2000 ≤ n && n ≤ 0x200a) || n == 0x2028 || n == 0x2029 || n == 0x202f
    || n == 0x205f || n == 0x3000

/-- The function `strings.TrimSpace`. -/
def TrimSpace (s : String) : String :=
  String.mk ((s.toList.dropWhile isSpace).reverse.dropWhile isSpace).reverse

/-- The characters up to and including the first line feed (all of them when
there is none). -/
def readThrough : List Char → List Char
  | [] => []
  | c :: cs => if c = '\n' then [c] else c :: readThrough cs

/-- The call `reader.ReadString('\n')` on the characters typed at the prompt; its
error is discarded by `main`. -/
def ReadString (typed : String) : String := String.mk (readThrough typed.toList)

/-- Where the composition of the choices ends: a `Display` did not return
(`stopped`, with its outcome), or the four choices are made and `rest` is the
input left for the Push? menu. -/
inductive Composed where
  | stopped (o : Outcome)
  | choices (c : Choices) (rest : List RawRead)
  deriving DecidableEq, Repr

/-- The commit branch of `main` from `choices := Choices{}` to the trimmed
commit message: the three menus are displayed in turn on the key events
`reads`, then the message is read from `typed`.  When a `Display` does not
return, its outcome is the result.  The calls of `renderCommit` only print. -/
def composeChoices (config : Config) (reads : List RawRead) (typed : String) :
    Composed :=
  match Display (menuType config) reads with
  | .returned typeChoice _ reads1 =>
    match Display (menuScope config) reads1 with
    | .returned scopeChoice _ reads2 =>
      match Display menuBreak reads2 with
      | .returned breakChoice _ reads3 =>
        .choices { TypeChoice := typeChoice, ScopeChoice := scopeChoice,
                   BreakChoice := breakChoice,
                   CommitMessage := TrimSpace (ReadString typed) } reads3
      | o => .stopped o
    | o => .stopped o
  | o => .stopped o

/-! ## Lemmas on the loop of `Display` -/

/-- The cursor denotes an existing item. -/
def Menu.cursorValid (m : Menu) : Prop :=
  0 ≤ m.CursorPos ∧ m.CursorPos < (m.MenuItems.length : Int)

theorem Display_escape (m : Menu) (r : RawRead) (rest : List RawRead)
    (hr : getInput r = some escape) :
    Display m (r :: rest) = .returned "" m rest := by
  simp [Display, hr]

theorem Display_forceQuit (m : Menu) (r : RawRead) (rest : List RawRead)
    (hr : getInput r = some 24) :
    Display m (r :: rest) = .exited := by
  simp [Display, hr, escape]

theorem Display_enter (m : Menu) (r : RawRead) (rest : List RawRead)
    (hr : getInput r = some enter) :
    Display m (r :: rest) =
      match index m.MenuItems m.CursorPos with
      | none => .panicked .indexOutOfRange
      | some menuItem => .returned menuItem.ID m rest := by
  simp [Display, hr, escape, enter]

theorem Display_up (m : Menu) (r : RawRead) (rest : List RawRead)
    (hr : getInput r = some up) :
    Display m (r :: rest) =
      match goMod (m.CursorPos + (m.MenuItems.length : Int) - 1) (m.MenuItems.length : Int) with
      | none => .panicked .integerDivideByZero
      | some c => Display { m with CursorPos := c } rest := by
  simp [Display, hr, escape, enter, up]

theorem Display_down (m : Menu) (r : RawRead) (rest : List RawRead)
    (hr : getInput r = some down) :
    Display m (r :: rest) =
      match goMod (m.CursorPos + 1) (m.MenuItems.length : Int) with
      | none => .panicked .integerDivideByZero
      | some c => Display { m with CursorPos := c } rest := by
  simp [Display, hr, escape, enter, up, down]

theorem Display_other (m : Menu) (r : RawRead) (rest : List RawRead) (k : Nat)
    (hr : getInput r = some k) (h1 : k ≠ escape) (h2 : k ≠ 24) (h3 : k ≠ enter)
    (h4 : k ≠ up) (h5 : k ≠ down) :
    Display m (r :: rest) = Display m rest := by
  simp [Display, hr, h1, h2, h3, h4, h5]

theorem index_of_valid {α : Type} (xs : List α) (i : Nat) (hi : i < xs.length) :
    index xs (i : Int) = some (xs.get ⟨i, hi⟩) := by
  have h : (0 : Int) ≤ (i : Int) ∧ (i : Int) < (xs.length : Int) :=
    ⟨Int.ofNat_nonneg i, by exact_mod_cast hi⟩
  simp [index, h, List.get?_eq_get hi]

theorem goMod_of_valid (a n : Int) (ha : 0 ≤ a) (hn : 0 < n) :
    goMod a n = some (a % n) := by
  have hne : n ≠ 0 := by omega
  simp [goMod, hne, Int.tmod_eq_emod ha (le_of_lt hn)]

theorem Display_down_valid (m : Menu) (r : RawRead) (rest : List RawRead)
    (hr : getInput r = some down) (hv : m.cursorValid) :
    Display m (r :: rest) =
      Display { m with CursorPos := (m.CursorPos + 1) % (m.MenuItems.length : Int) } rest := by
  obtain ⟨h0, h1⟩ := hv
  rw [Display_down m r rest hr, goMod_of_valid _ _ (by omega) (by omega)]

theorem Display_up_valid (m : Menu) (r : RawRead) (rest : List RawRead)
    (hr : getInput r = some up) (hv : m.cursorValid) :
    Display m (r :: rest) =
      Display { m with CursorPos :=
        (m.CursorPos + (m.MenuItems.length : Int) - 1) % (m.MenuItems.length : Int) } rest := by
  obtain ⟨h0, h1⟩ := hv
  rw [Display_up m r rest hr, goMod_of_valid _ _ (by omega) (by omega)]

/-- Moving the cursor to a residue modulo the number of items keeps it valid. -/
theorem cursorValid_mod (m : Menu) (a : Int) (hv : m.cursorValid) :
    Menu.cursorValid { m with CursorPos := a % (m.MenuItems.length : Int) } := by
  obtain ⟨h0, h1⟩ := hv
  have hn : (0 : Int) < (m.MenuItems.length : Int) := by omega
  exact ⟨Int.emod_nonneg _ (by omega), Int.emod_lt_of_pos _ hn⟩

/-- After `k` presses of a key that adds `d` to the cursor modulo the number of
items, the cursor is at `(c + k * d) mod N`. -/
theorem Display_replicate_shift (r : RawRead) (d : Menu → Int)
    (hd : ∀ m a, d { m with CursorPos := a } = d m)
    (hstep : ∀ (m : Menu) (rest : List RawRead), m.cursorValid →
      Display m (r :: rest) =
        Display { m with CursorPos := (m.CursorPos + d m) % (m.MenuItems.length : Int) } rest)
    (k : Nat) : ∀ (m : Menu) (rest : List RawRead), m.cursorValid →
      Display m (List.replicate k r ++ rest) =
        Display { m with CursorPos :=
          (m.CursorPos + (k : Int) * d m) % (m.MenuItems.length : Int) } rest := by
  induction k with
  | zero =>
    intro m rest hv
    obtain ⟨h0, h1⟩ := hv
    simp [Int.emod_eq_of_lt h0 h1]
  | succ k ih =>
    intro m rest hv
    have hv2 := cursorValid_mod m (m.CursorPos + d m) hv
    rw [List.replicate_succ, List.cons_append, hstep m _ hv, ih _ rest hv2]
    simp only [hd]
    congr 2
    rw [Int.emod_add_emod]
    congr 1
    push_cast
    ring

/-- As long as the cursor starts on an existing item, a run of `Display` keeps
the item list, keeps the cursor on an existing item, returns only the empty
string or the ID of an item, and never panics. -/
theorem Display_keeps (reads : List RawRead) : ∀ (m : Menu), m.cursorValid →
    (∀ m2, Display m reads = .awaiting m2 →
      m2.MenuItems = m.MenuItems ∧ m2.cursorValid) ∧
    (∀ v m2 rest, Display m reads = .returned v m2 rest →
      m2.MenuItems = m.MenuItems ∧ m2.cursorValid ∧
        (v = "" ∨ ∃ item ∈ m.MenuItems, v = item.ID)) ∧
    (∀ e, Display m reads ≠ .panicked e) := by
  induction reads with
  | nil =>
    intro m hv
    simp only [Display]
    refine ⟨?_, ?_, ?_⟩
    · intro m2 h
      cases h
      exact ⟨rfl, hv⟩
    · intro v m2 rest h
      cases h
    · intro e h
      cases h
  | cons r reads ih =>
    intro m hv
    cases hr : getInput r with
    | none =>
      have h : Display m (r :: reads) = .fatal := by simp [Display, hr]
      rw [h]
      simp
    | some k =>
      by_cases h1 : k = escape
      · subst h1
        rw [Display_escape m r reads hr]
        refine ⟨by simp, ?_, by simp⟩
        intro v m2 rest h
        cases h
        exact ⟨rfl, hv, Or.inl rfl⟩
      by_cases h2 : k = 24
      · subst h2
        rw [Display_forceQuit m r reads hr]
        simp
      by_cases h3 : k = enter
      · subst h3
        obtain ⟨h0, hlt⟩ := hv
        obtain ⟨i, hi⟩ := Int.eq_ofNat_of_zero_le h0
        have hil : i < m.MenuItems.length := by
          rw [hi] at hlt
          exact_mod_cast hlt
        rw [Display_enter m r reads hr, hi, index_of_valid _ i hil]
        refine ⟨by simp, ?_, by simp⟩
        intro v m2 rest h
        cases h
        refine ⟨rfl, ⟨by omega, by omega⟩, Or.inr ⟨_, List.get_mem _ _ _, rfl⟩⟩
      by_cases h4 : k = up
      · subst h4
        rw [Display_up_valid m r reads hr hv]
        exact ih _ (cursorValid_mod m _ hv)
      by_cases h5 : k = down
      · subst h5
        rw [Display_down_valid m r reads hr hv]
        exact ih _ (cursorValid_mod m _ hv)
      rw [Display_other m r reads k hr h1 h2 h3 h4 h5]
      exact ih m hv

/-! ## Lemmas on the menus of `main` -/

theorem foldl_AddItem_items (f : String → MenuItem) (step : Menu → String → Menu)
    (hstep : ∀ m x, (step m x).MenuItems = m.MenuItems ++ [f x])
    (xs : List String) : ∀ m : Menu,
      (xs.foldl step m).MenuItems = m.MenuItems ++ xs.map f := by
  induction xs with
  | nil => intro m; simp
  | cons x xs ih =>
    intro m
    rw [List.foldl_cons, ih, hstep]
    simp

theorem menuType_items (config : Config) :
    (menuType config).MenuItems = config.Types.map (fun t => { Text := t, ID := t }) := by
  unfold menuType
  rw [foldl_AddItem_items (fun t => { Text := t, ID := t }) _ (fun _ _ => rfl)]
  simp [NewMenu]

theorem menuScope_items (config : Config) :
    (menuScope config).MenuItems =
      { Text := "none", ID := "" } ::
        config.Scopes.map (fun s => { Text := s, ID := "(" ++ s ++ ")" }) := by
  unfold menuScope
  rw [foldl_AddItem_items (fun s => { Text := s, ID := "(" ++ s ++ ")" }) _ (fun _ _ => rfl)]
  simp [NewMenu, Menu.AddItem]

theorem paren_ne_empty (s : String) : "(" ++ s ++ ")" ≠ "" := by
  intro h
  have hl := congrArg String.length h
  simp only [String.length_append] at hl
  have h1 : ("(" : String).length = 1 := by decide
  have h2 : ("" : String).length = 0 := by decide
  omega

/-! ## The claims -/

/-- C1: for a menu with N ≥ 1 items and a cursor c in [0, N-1], N presses of
Down bring the cursor back to c, and so do N presses of Up: the loop of
Display is then in the state it started from (awaiting the next key with the
same menu, and behaving on any further input as from the start). -/
theorem Display_cursor_cycle (m : Menu) (rd ru : RawRead) (rest : List RawRead)
    (hN : 1 ≤ m.MenuItems.length)
    (h0 : 0 ≤ m.CursorPos) (h1 : m.CursorPos ≤ (m.MenuItems.length : Int) - 1)
    (hd : getInput rd = some down) (hu : getInput ru = some up) :
    Display m (List.replicate m.MenuItems.length rd) = .awaiting m ∧
    Display m (List.replicate m.MenuItems.length ru) = .awaiting m ∧
    Display m (List.replicate m.MenuItems.length rd ++ rest) = Display m rest ∧
    Display m (List.replicate m.MenuItems.length ru ++ rest) = Display m rest := by
  have hpos : (0 : Int) < (m.MenuItems.length : Int) := by exact_mod_cast hN
  have hv : m.cursorValid := ⟨h0, by omega⟩
  have hlt : m.CursorPos < (m.MenuItems.length : Int) := hv.2
  have hback : ∀ a : Int, a % (m.MenuItems.length : Int) = m.CursorPos →
      ({ m with CursorPos := a % (m.MenuItems.length : Int) } : Menu) = m := by
    intro a ha
    rw [ha]
  have down_all : ∀ rest2, Display m (List.replicate m.MenuItems.length rd ++ rest2)
      = Display m rest2 := by
    intro rest2
    rw [Display_replicate_shift rd (fun _ => 1) (fun _ _ => rfl)
      (fun m2 rest3 hv2 => by simpa using Display_down_valid m2 rd rest3 hd hv2)
      m.MenuItems.length m rest2 hv]
    rw [hback]
    simp [Int.emod_eq_of_lt h0 hlt]
  have up_all : ∀ rest2, Display m (List.replicate m.MenuItems.length ru ++ rest2)
      = Display m rest2 := by
    intro rest2
    rw [Display_replicate_shift ru (fun m2 => (m2.MenuItems.length : Int) - 1) (fun _ _ => rfl)
      (fun m2 rest3 hv2 => by
        have h := Display_up_valid m2 ru rest3 hu hv2
        rw [h]
        congr 2
        ring_nf)
      m.MenuItems.length m rest2 hv]
    rw [hback]
    rw [Int.add_mul_emod_self_left, Int.emod_eq_of_lt h0 hlt]
  refine ⟨?_, ?_, down_all rest, up_all rest⟩
  · have h := down_all []
    simpa [Display] using h
  · have h := up_all []
    simpa [Display] using h

theorem Display_cursor_cycle_witness :
    Display menuBreak (List.replicate menuBreak.MenuItems.length (.bytes 3 27 91 66))
        = .awaiting menuBreak ∧
    Display menuBreak (List.replicate menuBreak.MenuItems.length (.bytes 3 27 91 65))
        = .awaiting menuBreak ∧
    Display menuBreak (List.replicate menuBreak.MenuItems.length (.bytes 3 27 91 66)
        ++ [.bytes 1 13 0 0]) = Display menuBreak [.bytes 1 13 0 0] ∧
    Display menuBreak (List.replicate menuBreak.MenuItems.length (.bytes 3 27 91 65)
        ++ [.bytes 1 13 0 0]) = Display menuBreak [.bytes 1 13 0 0] :=
  Display_cursor_cycle menuBreak (.bytes 3 27 91 66) (.bytes 3 27 91 65) [.bytes 1 13 0 0]
    (by decide) (by decide) (by decide) (by decide) (by decide)

/-- C2: for a menu with N ≥ 1 items and a cursor on index i in [0, N-1], when
Display receives Enter (key code 13) it returns exactly the ID of the item at
index i, leaving the menu as it is and the remaining input unread. -/
theorem Display_enter_returns_item (m : Menu) (r : RawRead) (rest : List RawRead)
    (i : Nat) (hi : i < m.MenuItems.length) (hc : m.CursorPos = (i : Int))
    (hr : getInput r = some 13) :
    Display m (r :: rest) = .returned (m.MenuItems.get ⟨i, hi⟩).ID m rest := by
  rw [Display_enter m r rest hr, hc, index_of_valid _ i hi]

theorem Display_enter_returns_item_witness :
    Display ({ menuBreak with CursorPos := 1 }) [.bytes 1 13 0 0, .bytes 1 65 0 0]
      = .returned "!" ({ menuBreak with CursorPos := 1 }) [.bytes 1 65 0 0] :=
  Display_enter_returns_item ({ menuBreak with CursorPos := 1 }) (.bytes 1 13 0 0)
    [.bytes 1 65 0 0] 1 (by decide) (by decide) (by decide)

/-- C3, as stated, fails: on Escape the breaking-change menu returns the ID of
its item "no", and the scope menu of the configuration with types feat, fix
and scope api returns the ID of its item "none". -/
theorem Display_escape_equals_item_id :
    (∃ item ∈ menuBreak.MenuItems, item.Text = "no" ∧
      Display menuBreak [.bytes 1 27 0 0] = .returned item.ID menuBreak []) ∧
    (∃ item ∈ (menuScope ⟨["feat", "fix"], ["api"]⟩).MenuItems, item.Text = "none" ∧
      Display (menuScope ⟨["feat", "fix"], ["api"]⟩) [.bytes 1 27 0 0]
        = .returned item.ID (menuScope ⟨["feat", "fix"], ["api"]⟩) []) := by
  refine ⟨⟨⟨"no", ""⟩, by decide, by decide, by decide⟩,
    ⟨⟨"none", ""⟩, by decide, by decide, by decide⟩⟩

/-- C3, amended: on Escape Display returns the empty string, whatever the menu.
The empty string differs from the ID of every item whose ID is not empty: from
every item of the Push? menu, from every item of the type menu when no
configured type is empty, and from every scope item "(scope)" of the scope
menu.  It is the ID of the item "none" of the scope menu and of the item "no"
of the breaking-change menu. -/
theorem Display_escape_returns_empty (m : Menu) (r : RawRead) (rest : List RawRead)
    (config : Config) (hr : getInput r = some escape) :
    Display m (r :: rest) = .returned "" m rest ∧
    (∀ item ∈ m.MenuItems, item.ID ≠ "" →
      Display m (r :: rest) ≠ .returned item.ID m rest) ∧
    (∀ item ∈ menuCommit.MenuItems, item.ID ≠ "") ∧
    ((∀ t ∈ config.Types, t ≠ "") → ∀ item ∈ (menuType config).MenuItems, item.ID ≠ "") ∧
    (∀ item ∈ (menuScope config).MenuItems, item.ID = "" ↔ item = ⟨"none", ""⟩) ∧
    (⟨"none", ""⟩ ∈ (menuScope config).MenuItems) ∧
    (⟨"no", ""⟩ ∈ menuBreak.MenuItems) := by
  have hesc := Display_escape m r rest hr
  refine ⟨hesc, ?_, by decide, ?_, ?_, ?_, by decide⟩
  · intro item _ hne h
    rw [hesc] at h
    injection h with hv
    exact hne hv.symm
  · intro ht item hitem
    rw [menuType_items] at hitem
    obtain ⟨t, htm, rfl⟩ := List.mem_map.1 hitem
    exact ht t htm
  · intro item hitem
    rw [menuScope_items] at hitem
    rcases List.mem_cons.1 hitem with h | h
    · subst h
      simp
    · obtain ⟨sc, _, rfl⟩ := List.mem_map.1 h
      constructor
      · intro hid
        exact absurd hid (paren_ne_empty sc)
      · intro heq
        have hid := congrArg MenuItem.ID heq
        exact absurd hid (paren_ne_empty sc)
  · rw [menuScope_items]
    exact List.mem_cons_self _ _

theorem Display_escape_returns_empty_witness :
    Display menuCommit [.bytes 1 27 0 0, .bytes 1 13 0 0]
      = .returned "" menuCommit [.bytes 1 13 0 0] ∧
    (⟨"none", ""⟩ ∈ (menuScope ⟨["feat", "fix"], ["api"]⟩).MenuItems) :=
  ⟨(Display_escape_returns_empty menuCommit (.bytes 1 27 0 0) [.bytes 1 13 0 0]
      ⟨["feat", "fix"], ["api"]⟩ (by decide)).1,
   (Display_escape_returns_empty menuCommit (.bytes 1 27 0 0) [.bytes 1 13 0 0]
      ⟨["feat", "fix"], ["api"]⟩ (by decide)).2.2.2.2.2.1⟩

/-- C4: what the code does in the two scenarios.  With types feat, fix and scope
api, choosing feat, api, no and typing "add health endpoint" composes the
choices feat, (api), empty marker, and choosing fix, none, yes and typing
"drop legacy field" composes fix, empty scope, "!".  The string commitAndPush
assembles from them, and hands to git commit, is "Commit ... feat(api): add
health endpoint" resp. "Commit ... fix!: drop legacy field", each followed by a
line feed: not the conventional-commit strings "feat(api): add health
endpoint" and "fix!: drop legacy field". -/
theorem commit_string_has_label :
    composeChoices ⟨["feat", "fix"], ["api"]⟩
        [.bytes 1 13 0 0, .bytes 3 27 91 66, .bytes 1 13 0 0, .bytes 1 13 0 0]
        "add health endpoint\n"
      = .choices ⟨"feat", "(api)", "", "add health endpoint"⟩ [] ∧
    Choices.commit ⟨"feat", "(api)", "", "add health endpoint"⟩
      = "Commit ... feat(api): add health endpoint\n" ∧
    Choices.commit ⟨"feat", "(api)", "", "add health endpoint"⟩
      ≠ "feat(api): add health endpoint" ∧
    (Choices.commitAndPush ⟨"feat", "(api)", "", "add health endpoint"⟩ false none
        ⟨"", [], none⟩).2.commands
      = [["git", "commit", "-am", "Commit ... feat(api): add health endpoint\n"]] ∧
    composeChoices ⟨["feat", "fix"], ["api"]⟩
        [.bytes 3 27 91 66, .bytes 1 13 0 0, .bytes 1 13 0 0, .bytes 3 27 91 66, .bytes 1 13 0 0]
        "drop legacy field\n"
      = .choices ⟨"fix", "", "!", "drop legacy field"⟩ [] ∧
    Choices.commit ⟨"fix", "", "!", "drop legacy field"⟩
      = "Commit ... fix!: drop legacy field\n" ∧
    Choices.commit ⟨"fix", "", "!", "drop legacy field"⟩ ≠ "fix!: drop legacy field" ∧
    (Choices.commitAndPush ⟨"fix", "", "!", "drop legacy field"⟩ false none
        ⟨"", [], none⟩).2.commands
      = [["git", "commit", "-am", "Commit ... fix!: drop legacy field\n"]] := by
  refine ⟨by decide, by decide, by decide, by decide, by decide, by decide, by decide, by decide⟩

/-- C5: for a menu with N ≥ 1 items whose cursor starts in [0, N-1], after any
finite sequence of key events the loop of Display still has the same item list
and a cursor in [0, N-1]; a value it returns is the empty string (the result
of Escape) or the ID of one of the items, and the menu it leaves behind has
the same items and a cursor in range; no run-time panic occurs. -/
theorem Display_invariant (m : Menu) (reads : List RawRead)
    (hN : 1 ≤ m.MenuItems.length)
    (h0 : 0 ≤ m.CursorPos) (h1 : m.CursorPos ≤ (m.MenuItems.length : Int) - 1) :
    (∀ m2, Display m reads = .awaiting m2 →
      m2.MenuItems = m.MenuItems ∧
        0 ≤ m2.CursorPos ∧ m2.CursorPos ≤ (m.MenuItems.length : Int) - 1) ∧
    (∀ v m2 rest, Display m reads = .returned v m2 rest →
      m2.MenuItems = m.MenuItems ∧
        0 ≤ m2.CursorPos ∧ m2.CursorPos ≤ (m.MenuItems.length : Int) - 1 ∧
        (v = "" ∨ ∃ item ∈ m.MenuItems, v = item.ID)) ∧
    (∀ e, Display m reads ≠ .panicked e) := by
  have hpos : (0 : Int) < (m.MenuItems.length : Int) := by exact_mod_cast hN
  obtain ⟨ha, hr, hp⟩ := Display_keeps reads m ⟨h0, by omega⟩
  refine ⟨?_, ?_, hp⟩
  · intro m2 h
    obtain ⟨hi, hv0, hv1⟩ := ha m2 h
    rw [hi] at hv1
    exact ⟨hi, hv0, by omega⟩
  · intro v m2 rest h
    obtain ⟨hi, ⟨hv0, hv1⟩, hval⟩ := hr v m2 rest h
    rw [hi] at hv1
    exact ⟨hi, hv0, by omega, hval⟩

theorem Display_invariant_witness :
    (∀ m2, Display menuCommit [.bytes 3 27 91 65, .bytes 1 120 0 0] = .awaiting m2 →
      m2.MenuItems = menuCommit.MenuItems ∧
        0 ≤ m2.CursorPos ∧ m2.CursorPos ≤ (menuCommit.MenuItems.length : Int) - 1) ∧
    (∀ v m2 rest, Display menuCommit [.bytes 3 27 91 65, .bytes 1 120 0 0]
        = .returned v m2 rest →
      m2.MenuItems = menuCommit.MenuItems ∧
        0 ≤ m2.CursorPos ∧ m2.CursorPos ≤ (menuCommit.MenuItems.length : Int) - 1 ∧
        (v = "" ∨ ∃ item ∈ menuCommit.MenuItems, v = item.ID)) ∧
    (∀ e, Display menuCommit [.bytes 3 27 91 65, .bytes 1 120 0 0] ≠ .panicked e) :=
  Display_invariant menuCommit [.bytes 3 27 91 65, .bytes 1 120 0 0]
    (by decide) (by decide) (by decide)

/-- C6: whenever convcom.json already exists, whatever its content and whatever
the operating system would answer to the later calls, createConfigFile returns
the error "config file convcom.json already exists" and changes nothing: the
file keeps its content, nothing is printed and nothing is run. -/
theorem createConfigFile_existing (env : FileEnv) (w : World) (content : String)
    (h : w.configFile = some content) :
    createConfigFile env w = (some "config file convcom.json already exists", w) := by
  have hstat : IsNotExist (osStat env w) = false := by
    unfold osStat
    cases env.statFails <;> simp [h, IsNotExist]
  have hmsg : "config file " ++ "convcom.json" ++ " already exists"
      = "config file convcom.json already exists" := by decide
  simp [createConfigFile, hstat, hmsg]

theorem createConfigFile_existing_witness :
    createConfigFile ⟨false, none, none⟩ ⟨"", [], some "custom"⟩
      = (some "config file convcom.json already exists", ⟨"", [], some "custom"⟩) :=
  createConfigFile_existing ⟨false, none, none⟩ ⟨"", [], some "custom"⟩ "custom" rfl

/-- C7: what the code does in a dry run on the choices test, no scope, not
breaking, message "reach 100% coverage".  No command is run and the error is
nil, but the assembled string is used as the format of Printf, so its "% c" is
read as a verb without operand and what is printed is "Commit ... test: reach
100%!c(MISSING)overage", not the assembled commit message. -/
theorem dryrun_percent_garbled :
    Choices.commit ⟨"test", "", "", "reach 100% coverage"⟩
      = "Commit ... test: reach 100% coverage\n" ∧
    Printf (Choices.commit ⟨"test", "", "", "reach 100% coverage"⟩)
      = "Commit ... test: reach 100%!c(MISSING)overage\n" ∧
    Choices.commitAndPush ⟨"test", "", "", "reach 100% coverage"⟩ true none ⟨"", [], none⟩
      = (none, ⟨"\x1b[2J\x1b[H\x1b[4;37m\x1b[1;37mConventional Commit\x1b[0m\x1b[0m\n\n* \x1b[46mtest\x1b[0m\x1b[42m\x1b[0m\x1b[41m\x1b[0m: reach 100% coverage\n\nCommit ... test: reach 100%!c(MISSING)overage\n",
          [], none⟩) := by
  refine ⟨by decide, by decide, by decide⟩

/-- C8: what the code does on a read of the single byte 65 (the letter A) or 66
(the letter B).  getInput returns the byte verbatim, which is the code of Up
resp. Down, so in the breaking-change menu the cursor leaves item 0 for item
1, and a following Enter returns "!" instead of the empty marker. -/
theorem single_letter_moves_cursor :
    getInput (.bytes 1 65 0 0) = some up ∧
    getInput (.bytes 1 66 0 0) = some down ∧
    Display menuBreak [.bytes 1 65 0 0] = .awaiting { menuBreak with CursorPos := 1 } ∧
    Display menuBreak [.bytes 1 66 0 0] = .awaiting { menuBreak with CursorPos := 1 } ∧
    Display menuBreak [.bytes 1 13 0 0] = .returned "" menuBreak [] ∧
    Display menuBreak [.bytes 1 65 0 0, .bytes 1 13 0 0]
      = .returned "!" { menuBreak with CursorPos := 1 } [] := by
  refine ⟨by decide, by decide, by decide, by decide, by decide, by decide⟩

/-- C9: the decoding done by getInput of a read of n bytes, 1 ≤ n ≤ 3.  When
n = 3 and the third byte is 65 or 66, the result is that byte (Up, Down),
whatever the first two bytes; when n = 3 and the third byte is neither, the
result is 0, a code on which Display does nothing and goes on; when n < 3 the
result is the first byte, so a lone 27 is Escape (Display returns) and a lone
24 is Ctrl+X (Display exits the process). -/
theorem getInput_decoding (n b0 b1 b2 : Nat) (hn1 : 1 ≤ n) (hn3 : n ≤ 3) :
    (n = 3 → b2 = 65 → getInput (.bytes n b0 b1 b2) = some up) ∧
    (n = 3 → b2 = 66 → getInput (.bytes n b0 b1 b2) = some down) ∧
    (n = 3 → b2 ≠ 65 → b2 ≠ 66 → getInput (.bytes n b0 b1 b2) = some 0) ∧
    (∀ (m : Menu) (r : RawRead) (rest : List RawRead), getInput r = some 0 →
      Display m (r :: rest) = Display m rest) ∧
    (n < 3 → getInput (.bytes n b0 b1 b2) = some b0) ∧
    (n < 3 → b0 = 27 → getInput (.bytes n b0 b1 b2) = some escape ∧
      ∀ (m : Menu) (rest : List RawRead),
        Display m (.bytes n b0 b1 b2 :: rest) = .returned "" m rest) ∧
    (n < 3 → b0 = 24 → getInput (.bytes n b0 b1 b2) = some 24 ∧
      ∀ (m : Menu) (rest : List RawRead),
        Display m (.bytes n b0 b1 b2 :: rest) = .exited) := by
  have hlt : n < 3 → getInput (.bytes n b0 b1 b2) = some b0 := by
    intro h
    have hne : n ≠ 3 := by omega
    by_cases hb : b0 = 24 <;> simp [getInput, hne, hb]
  refine ⟨?_, ?_, ?_, ?_, hlt, ?_, ?_⟩
  · intro h3 hb
    simp [getInput, h3, hb, keys, up]
  · intro h3 hb
    simp [getInput, h3, hb, keys, up, down]
  · intro h3 hb1 hb2
    simp [getInput, h3, hb1, hb2, keys, up, down]
  · intro m r rest hr
    exact Display_other m r rest 0 hr (by decide) (by decide) (by decide) (by decide)
      (by decide)
  · intro h hb
    have hg : getInput (.bytes n b0 b1 b2) = some escape := by
      rw [hlt h, hb]
      rfl
    exact ⟨hg, fun m rest => Display_escape m _ rest hg⟩
  · intro h hb
    have hg : getInput (.bytes n b0 b1 b2) = some 24 := by
      rw [hlt h, hb]
    exact ⟨hg, fun m rest => Display_forceQuit m _ rest hg⟩

theorem getInput_decoding_witness :
    getInput (.bytes 3 27 91 65) = some up ∧ getInput (.bytes 1 27 0 0) = some escape :=
  ⟨(getInput_decoding 3 27 91 65 (by decide) (by decide)).1 rfl rfl,
   ((getInput_decoding 1 27 0 0 (by decide) (by decide)).2.2.2.2.2.1 (by decide) rfl).1⟩

/-- C10: the indexing and the modulo of Display are safe exactly on a non-empty
menu.  With at least one item and the cursor in range, no sequence of keys
(Enter, Up and Down included) makes Display panic.  With no item, Enter panics
with an index out of range and Up and Down panic with an integer divide by
zero; the type menu of a configuration without types is such a menu. -/
theorem Display_safe_iff_nonempty (m : Menu) (r : RawRead) (rest : List RawRead)
    (scopes : List String) :
    (1 ≤ m.MenuItems.length → 0 ≤ m.CursorPos →
      m.CursorPos ≤ (m.MenuItems.length : Int) - 1 →
      ∀ (reads : List RawRead) (e : RuntimeError), Display m reads ≠ .panicked e) ∧
    (m.MenuItems.length = 0 → getInput r = some enter →
      Display m (r :: rest) = .panicked .indexOutOfRange) ∧
    (m.MenuItems.length = 0 → getInput r = some up →
      Display m (r :: rest) = .panicked .integerDivideByZero) ∧
    (m.MenuItems.length = 0 → getInput r = some down →
      Display m (r :: rest) = .panicked .integerDivideByZero) ∧
    (menuType ⟨[], scopes⟩).MenuItems.length = 0 := by
  refine ⟨?_, ?_, ?_, ?_, ?_⟩
  · intro hN h0 h1 reads e
    have hpos : (0 : Int) < (m.MenuItems.length : Int) := by exact_mod_cast hN
    exact (Display_keeps reads m ⟨h0, by omega⟩).2.2 e
  · intro hlen hr
    have hidx : index m.MenuItems m.CursorPos = none := by
      unfold index
      rw [hlen]
      have : ¬ (0 ≤ m.CursorPos ∧ m.CursorPos < ((0 : Nat) : Int)) := by
        intro h
        have := h.2
        simp at this
        omega
      simp [this]
    rw [Display_enter m r rest hr, hidx]
  · intro hlen hr
    rw [Display_up m r rest hr, hlen]
    simp [goMod]
  · intro hlen hr
    rw [Display_down m r rest hr, hlen]
    simp [goMod]
  · rfl

theorem Display_safe_iff_nonempty_witness :
    (∀ (reads : List RawRead) (e : RuntimeError), Display menuBreak reads ≠ .panicked e) ∧
    Display (menuType ⟨[], ["api"]⟩) [.bytes 1 13 0 0] = .panicked .indexOutOfRange ∧
    Display (menuType ⟨[], ["api"]⟩) [.bytes 3 27 91 65] = .panicked .integerDivideByZero ∧
    Display (menuType ⟨[], ["api"]⟩) [.bytes 3 27 91 66] = .panicked .integerDivideByZero :=
  ⟨(Display_safe_iff_nonempty menuBreak (.bytes 1 13 0 0) [] ["api"]).1
      (by decide) (by decide) (by decide),
   (Display_safe_iff_nonempty (menuType ⟨[], ["api"]⟩) (.bytes 1 13 0 0) [] ["api"]).2.1
      (by decide) (by decide),
   (Display_safe_iff_nonempty (menuType ⟨[], ["api"]⟩) (.bytes 3 27 91 65) [] ["api"]).2.2.1
      (by decide) (by decide),
   (Display_safe_iff_nonempty (menuType ⟨[], ["api"]⟩) (.bytes 3 27 91 66) [] ["api"]).2.2.2.1
      (by decide) (by decide)⟩

end Convcom
